import Mathlib

/-!
Verification of the mosquitto-rs MQTT client binding.

The repository is a safe-language binding around the native libmosquitto
client library: `src/libmosquitto-sys/src/lib.rs` declares the FFI surface
and `src/mosquitto-rs/src/lowlevel.rs` wraps it.  Pure logic of the binding
(QoS conversion, CString validation, size conversions, the granted-QoS
mapping, the Display impl, the Once-guarded initialization) is embedded
directly from the source.  The protocol engine (packet codec, topic
matching, native argument checks) lives inside the wrapped native library
and is modelled from the specification where a claim needs it; each such
definition carries a doc comment beginning `Modelled from the spec:`.
-/

namespace Mosquitto

/-- The `mosq_err_t` enum from `src/libmosquitto-sys/src/lib.rs`
(rust-bindgen output for libmosquitto's error codes). -/
inductive mosq_err_t where
  | MOSQ_ERR_AUTH_CONTINUE
  | MOSQ_ERR_NO_SUBSCRIBERS
  | MOSQ_ERR_SUB_EXISTS
  | MOSQ_ERR_CONN_PENDING
  | MOSQ_ERR_SUCCESS
  | MOSQ_ERR_NOMEM
  | MOSQ_ERR_PROTOCOL
  | MOSQ_ERR_INVAL
  | MOSQ_ERR_NO_CONN
  | MOSQ_ERR_CONN_REFUSED
  | MOSQ_ERR_NOT_FOUND
  | MOSQ_ERR_CONN_LOST
  | MOSQ_ERR_TLS
  | MOSQ_ERR_PAYLOAD_SIZE
  | MOSQ_ERR_NOT_SUPPORTED
  | MOSQ_ERR_AUTH
  | MOSQ_ERR_ACL_DENIED
  | MOSQ_ERR_UNKNOWN
  | MOSQ_ERR_ERRNO
  | MOSQ_ERR_EAI
  | MOSQ_ERR_PROXY
  | MOSQ_ERR_PLUGIN_DEFER
  | MOSQ_ERR_MALFORMED_UTF8
  | MOSQ_ERR_KEEPALIVE
  | MOSQ_ERR_LOOKUP
  | MOSQ_ERR_MALFORMED_PACKET
  | MOSQ_ERR_DUPLICATE_PROPERTY
  | MOSQ_ERR_TLS_HANDSHAKE
  | MOSQ_ERR_QOS_NOT_SUPPORTED
  | MOSQ_ERR_OVERSIZE_PACKET
  | MOSQ_ERR_OCSP
  | MOSQ_ERR_TIMEOUT
  | MOSQ_ERR_RETAIN_NOT_SUPPORTED
  | MOSQ_ERR_TOPIC_ALIAS_INVALID
  | MOSQ_ERR_ADMINISTRATIVE_ACTION
  | MOSQ_ERR_ALREADY_EXISTS
deriving DecidableEq, Repr

/-- Modelled from the spec: the crate's `Error` type (`crate::Error`,
`use crate::Error;` in lowlevel.rs) is declared outside the provided
source files.  From its uses in lowlevel.rs it has a constructor wrapping
a native `mosq_err_t` code (`Error::Mosq(..)`), a constructor produced by
the `?` on `CString::new` for interior NUL bytes (`cstr` propagates
`CString::new`'s error via `From`), and a constructor for failed client
creation (`Error::Create(..)`); the spec's section 7 error taxonomy calls
the first class `InvalidArgument`-style errors. -/
inductive Error where
  | Mosq (err : mosq_err_t)
  | Nul
  | Create
deriving DecidableEq, Repr

/-- Modelled from the spec: `Error::result(err, value)` is used throughout
lowlevel.rs to turn a native return code plus a success value into a
`Result`; its definition is outside the provided sources.  Success code
maps to `Ok(value)`, any other code to `Err(Error::Mosq(code))`. -/
def Error.result (err : mosq_err_t) (value : α) : Except Error α :=
  if err = .MOSQ_ERR_SUCCESS then .ok value else .error (.Mosq err)

/-- `MessageId` (`pub type MessageId = c_int;` in lowlevel.rs). -/
abbrev MessageId := Int

/-- The `QoS` enum from lowlevel.rs. -/
inductive QoS where
  | AtMostOnce
  | AtLeastOnce
  | ExactlyOnce
deriving DecidableEq, Repr

/-- `QoS::from_int` from lowlevel.rs: `0 => AtMostOnce, 1 => AtLeastOnce,
2 => ExactlyOnce, _ => ExactlyOnce`. -/
def QoS.fromInt (i : Int) : QoS :=
  if i = 0 then .AtMostOnce
  else if i = 1 then .AtLeastOnce
  else if i = 2 then .ExactlyOnce
  else .ExactlyOnce

/-- MQTT's maximum remaining-length / payload size, 268,435,455
(the spec's "max value 268,435,455" for the variable-length integer,
equal to 128 ^ 4 - 1). -/
def mqttMaxPayload : Nat := 268435455

/-- `i32::MAX`, the largest value representable in a C `int`; the bound at
which `usize::try_into::<c_int>()` and `u64::try_into::<c_int>()` fail in
lowlevel.rs. -/
def i32Max : Nat := 2147483647

/-! ### Packet codec, modelled from the spec (§4.1, §6)

The codec lives inside native libmosquitto and is not among the provided
source files; the claims about it are settled against a model built from
the spec's words. -/

/-- Result type of the decoder.  Modelled from the spec:
"`decode(bytes) -> (packet, bytes_consumed) | Incomplete | Malformed`",
with `Malformed` "carrying the offending reason". -/
inductive DecodeResult (α : Type) where
  | ok (value : α) (consumed : Nat)
  | incomplete
  | malformed (reason : String)
deriving DecidableEq, Repr

/-- Modelled from the spec: "MQTT's variable-length integer encoding for
remaining-length fields (7 bits per byte, continuation bit, 1–4 bytes,
max value 268,435,455)".  Low 7 bits first; a set high bit (value + 128)
marks a continuation byte. -/
def encodeVarint (n : Nat) : List Nat :=
  if h : n < 128 then [n]
  else (n % 128 + 128) :: encodeVarint (n / 128)
termination_by n
decreasing_by
  exact Nat.div_lt_self (Nat.lt_of_lt_of_le (by norm_num) (Nat.le_of_not_lt h)) (by norm_num)

/-- Modelled from the spec: decoder for the variable-length integer.
`budget` is the number of bytes the encoding may still use (4 at the top
level); a continuation byte with no budget left is the spec's "oversized
remaining-length" malformed case, and running out of input is
`Incomplete`. -/
def decodeVarintAux : List Nat → Nat → DecodeResult Nat
  | [], _ => .incomplete
  | b :: rest, budget =>
    if b < 128 then .ok b 1
    else if budget ≤ 1 then .malformed "oversized remaining-length"
    else
      match decodeVarintAux rest (budget - 1) with
      | .ok v c => .ok (b - 128 + 128 * v) (c + 1)
      | .incomplete => .incomplete
      | .malformed r => .malformed r

/-- Modelled from the spec: the remaining-length decoder, at most 4 bytes. -/
def decodeVarint (bytes : List Nat) : DecodeResult Nat :=
  decodeVarintAux bytes 4

theorem encodeVarint_small {n : Nat} (h : n < 128) : encodeVarint n = [n] := by
  unfold encodeVarint
  simp [h]

theorem encodeVarint_large {n : Nat} (h : ¬ n < 128) :
    encodeVarint n = (n % 128 + 128) :: encodeVarint (n / 128) := by
  rw [encodeVarint]
  simp [h]

/-- Round-trip for the variable-length integer: if `n` fits in `k` encoded
bytes, decoding the encoding (with any trailing bytes) with byte budget `k`
recovers `n` and consumes exactly the encoding's length. -/
theorem decodeVarintAux_encodeVarint (k : Nat) :
    ∀ n, n < 128 ^ k → ∀ rest,
      decodeVarintAux (encodeVarint n ++ rest) k = .ok n (encodeVarint n).length := by
  induction k with
  | zero =>
    intro n hn rest
    have hn0 : n = 0 := by simpa using hn
    subst hn0
    rw [encodeVarint_small (by norm_num)]
    simp [decodeVarintAux]
  | succ k ih =>
    intro n hn rest
    by_cases h : n < 128
    · rw [encodeVarint_small h]
      simp [decodeVarintAux, h]
    · rw [encodeVarint_large h]
      have hb : ¬ (n % 128 + 128 < 128) := by omega
      have hge : 128 ≤ n := Nat.le_of_not_lt h
      have hrec : n / 128 < 128 ^ k := by
        rw [Nat.div_lt_iff_lt_mul (by norm_num)]
        calc n < 128 ^ (k + 1) := hn
        _ = 128 ^ k * 128 := by ring
      have hk : ¬ (k + 1 ≤ 1) := by
        intro hle
        have hk0 : k = 0 := by omega
        subst hk0
        simp only [pow_zero, Nat.lt_one_iff] at hrec
        have h1 : 1 ≤ n / 128 := (Nat.one_le_div_iff (by norm_num)).mpr hge
        omega
      simp only [List.cons_append, decodeVarintAux, if_neg hb, if_neg hk,
        Nat.add_sub_cancel, List.append_eq, ih (n / 128) hrec rest,
        List.length_cons]
      have hval : n % 128 + 128 * (n / 128) = n := by omega
      rw [hval]

/-- A control packet, modelled from the spec: "fixed header (packet type
nibble, flags nibble, variable-length remaining-length), variable header,
payload".  The variable header and payload together form the packet's
remaining bytes, carried here as `body`. -/
structure Packet where
  ptype : Nat
  flags : Nat
  body : List Nat
deriving DecidableEq, Repr

/-- A valid packet: type nibble 1..15, flags nibble below 16, body within
the 268,435,455-byte remaining-length limit. -/
def ValidPacket (p : Packet) : Prop :=
  1 ≤ p.ptype ∧ p.ptype ≤ 15 ∧ p.flags < 16 ∧ p.body.length ≤ mqttMaxPayload

instance : DecidablePred ValidPacket := fun p => by
  unfold ValidPacket; infer_instance

/-- Modelled from the spec: `encode(packet) -> bytes`.  One fixed-header
byte holding the type nibble (high) and flags nibble (low), the
remaining-length as a variable-length integer, then the remaining bytes. -/
def encodePacket (p : Packet) : List Nat :=
  (p.ptype * 16 + p.flags) :: (encodeVarint p.body.length ++ p.body)

/-- Modelled from the spec: `decode(bytes) -> (packet, bytes_consumed) |
Incomplete | Malformed`.  Reads the fixed-header byte, the remaining
length, then requires that many body bytes, reporting `Incomplete` on a
partial buffer. -/
def decodePacket : List Nat → DecodeResult Packet
  | [] => .incomplete
  | h :: rest =>
    match decodeVarint rest with
    | .incomplete => .incomplete
    | .malformed r => .malformed r
    | .ok len c =>
      let afterLen := rest.drop c
      if afterLen.length < len then .incomplete
      else .ok ⟨h / 16, h % 16, afterLen.take len⟩ (1 + c + len)

theorem decodePacket_encodePacket (p : Packet) (hp : ValidPacket p) :
    decodePacket (encodePacket p) = .ok p (encodePacket p).length := by
  obtain ⟨_, _, hflags, hlen⟩ := hp
  have hfit : p.body.length < 128 ^ 4 := by
    have h4 : (128 : Nat) ^ 4 = 268435456 := by norm_num
    unfold mqttMaxPayload at hlen
    omega
  have hvar := decodeVarintAux_encodeVarint 4 p.body.length hfit p.body
  have hdiv : (p.ptype * 16 + p.flags) / 16 = p.ptype := by omega
  have hmod : (p.ptype * 16 + p.flags) % 16 = p.flags := by omega
  simp only [encodePacket, decodePacket, decodeVarint, hvar, List.drop_left,
    lt_irrefl, if_false, List.take_length, hdiv, hmod, List.length_cons,
    List.length_append]
  congr 1
  omega

/-! ### CString conversion (`cstr`, lowlevel.rs lines 56-58)

`cstr(s) = Ok(CString::new(s)?)`: `CString::new` fails exactly when the
string contains an interior NUL byte, and `cstr` propagates that failure
as an `Error`.  Strings are modelled as lists of characters. -/

/-- Whether a string contains an embedded NUL byte. -/
def hasNul (s : List Char) : Bool :=
  s.contains (Char.ofNat 0)

/-- `cstr` from lowlevel.rs: `CString::new` errors on an interior NUL,
propagated via `?`; otherwise the bytes pass through unchanged. -/
def cstr (s : List Char) : Except Error (List Char) :=
  if hasNul s then .error .Nul else .ok s

/-! ### `Mosq::subscribe` (lowlevel.rs lines 290-296)

`subscribe` evaluates `cstr(pattern)?` among the arguments of the native
`mosquitto_subscribe` call, so a `cstr` failure returns before the native
routine runs.  The native routine's return code and assigned message id
are parameters of the model; the second component of the result records
whether the native routine was invoked. -/

def subscribe (pattern : List Char) (nativeErr : mosq_err_t)
    (nativeMid : MessageId) : Except Error MessageId × Bool :=
  match cstr pattern with
  | .error e => (.error e, false)
  | .ok _ => (Error.result nativeErr nativeMid, true)

/-! ### `Mosq::publish` (lowlevel.rs lines 257-280)

`publish` evaluates `cstr(topic)?` and then
`payload.len().try_into().map_err(|_| Error::Mosq(MOSQ_ERR_PAYLOAD_SIZE))?`
among the arguments of the native `mosquitto_publish` call; the `usize`
to `c_int` conversion fails exactly when the length exceeds `i32::MAX`. -/

/-- Modelled from the spec: the native `mosquitto_publish` routine is not
among the provided sources.  Per the spec's Message model, a payload is
"0..268,435,455 bytes per MQTT5 limit", so the native routine rejects a
longer payload with the payload-size error and otherwise succeeds,
storing the assigned message identifier. -/
def nativePublishErr (payloadLen : Nat) : mosq_err_t :=
  if payloadLen > mqttMaxPayload then .MOSQ_ERR_PAYLOAD_SIZE else .MOSQ_ERR_SUCCESS

/-- The `usize -> c_int` size check in `Mosq::publish`: `try_into`
succeeds exactly when the length fits in a C int. -/
def payloadSizeCheck (payloadLen : Nat) : Bool :=
  payloadLen ≤ i32Max

def publish (topic : List Char) (payloadLen : Nat)
    (nativeMid : MessageId) : Except Error MessageId :=
  match cstr topic with
  | .error e => .error e
  | .ok _ =>
    if payloadSizeCheck payloadLen then
      Error.result (nativePublishErr payloadLen) nativeMid
    else
      .error (.Mosq .MOSQ_ERR_PAYLOAD_SIZE)

/-! ### `Mosq::connect` / `Mosq::connect_non_blocking`
(lowlevel.rs lines 153-182 and 202-231)

Both convert `host` via `cstr?`, then `bind_address` via `cstr?` when
present, then evaluate
`keep_alive_interval.as_secs().try_into().map_err(|_| Error::Mosq(MOSQ_ERR_INVAL))?`
among the arguments of the native connect routine; the `u64 -> c_int`
conversion fails exactly when the whole-second count exceeds `i32::MAX`.
The second component of the result records whether the native connect
routine was invoked; its return code is a parameter. -/

def connect (host : List Char) (bindAddress : Option (List Char))
    (keepAliveSecs : Nat) (nativeErr : mosq_err_t) :
    Except Error Unit × Bool :=
  match cstr host with
  | .error e => (.error e, false)
  | .ok _ =>
    match bindAddress.map cstr with
    | some (.error e) => (.error e, false)
    | _ =>
      if keepAliveSecs ≤ i32Max then (Error.result nativeErr (), true)
      else (.error (.Mosq .MOSQ_ERR_INVAL), false)

def connectNonBlocking (host : List Char) (bindAddress : Option (List Char))
    (keepAliveSecs : Nat) (nativeErr : mosq_err_t) :
    Except Error Unit × Bool :=
  match cstr host with
  | .error e => (.error e, false)
  | .ok _ =>
    match bindAddress.map cstr with
    | some (.error e) => (.error e, false)
    | _ =>
      if keepAliveSecs ≤ i32Max then (Error.result nativeErr (), true)
      else (.error (.Mosq .MOSQ_ERR_INVAL), false)

/-! ### Topic matching, modelled from the spec (§6)

`mosquitto_topic_matches_sub` is only declared in
`src/libmosquitto-sys/src/lib.rs`; its implementation lives in the native
library. -/

/-- Split a string into its `/`-separated topic levels. -/
def splitLevels : List Char → List (List Char)
  | [] => [[]]
  | c :: rest =>
    if c = '/' then [] :: splitLevels rest
    else
      match splitLevels rest with
      | [] => [[c]]
      | l :: ls => (c :: l) :: ls

/-- Modelled from the spec: the level-by-level wildcard match behind
`topic_matches`: `+` matches exactly one level, a trailing `#` matches
the remaining levels including none (so `sensors/#` matches `sensors`),
and a literal level must match exactly. -/
def matchLevels : List (List Char) → List (List Char) → Bool
  | [], [] => true
  | [], _ :: _ => false
  | f :: fs, [] => f == ['#'] && fs.isEmpty
  | f :: fs, t :: ts =>
    if f == ['#'] && fs.isEmpty then true
    else if f == ['+'] then matchLevels fs ts
    else f == t && matchLevels fs ts

/-- Modelled from the spec: the pure function
`topic_matches(filter, topic) -> bool` "implementing `+`/`#` wildcard
semantics, usable independent of an active connection"
(`mosquitto_topic_matches_sub` is implemented inside the native
library).  Splits filter and topic on `/` and matches level by level. -/
def topic_matches (filter topic : String) : Bool :=
  matchLevels (splitLevels filter.toList) (splitLevels topic.toList)

/-! ### Granted QoS mapping in the SUBACK callback
(`CallbackWrapper::subscribe`, lowlevel.rs lines 400-413)

The dispatcher receives `qos_count` granted values, forms the slice of
that length, and computes
`granted_qos.iter().map(QoS::from_int).collect()` before invoking
`on_subscribe` with the resulting vector. -/

def grantedQoS (values : List Int) : List QoS :=
  values.map QoS.fromInt

/-! ### Library initialization (`init_library`, lowlevel.rs lines 10-18)

`static INIT: Once` guards `mosquitto_lib_init()`; `Once::call_once` runs
its closure only if it has never run before.  The comment in the source
states that `mosquitto_lib_cleanup` is never called.  `lib_version`,
`Mosq::with_auto_id` and `Mosq::with_id` each begin with
`init_library()`; no code path calls the cleanup routine. -/

structure LibState where
  onceDone : Bool
  initCount : Nat
  cleanupCount : Nat
deriving DecidableEq, Repr

def initialLibState : LibState :=
  ⟨false, 0, 0⟩

/-- `init_library`: `INIT.call_once(|| mosquitto_lib_init())` — the native
init routine runs only if the `Once` has not completed yet. -/
def initLibrary (s : LibState) : LibState :=
  if s.onceDone then s
  else ⟨true, s.initCount + 1, s.cleanupCount⟩

/-- The three public entry points that touch the global library state. -/
inductive ApiCall where
  | libVersion
  | withAutoIdCall
  | withIdCall
deriving DecidableEq, Repr

/-- Effect of one entry point on the global library state: each starts
with `init_library()`, and none calls `mosquitto_lib_cleanup`. -/
def stepCall (s : LibState) (c : ApiCall) : LibState :=
  match c with
  | .libVersion => initLibrary s
  | .withAutoIdCall => initLibrary s
  | .withIdCall => initLibrary s

def runCalls (s : LibState) (cs : List ApiCall) : LibState :=
  cs.foldl stepCall s

/-! ### `LibraryVersion` and its `Display` impl (lowlevel.rs lines 20-37) -/

structure LibraryVersion where
  major : Int
  minor : Int
  revision : Int
  ver : Int
deriving DecidableEq, Repr

/-- The `Display` impl from lowlevel.rs line 35:
`write!(f, "\x7b\x7d.\x7b\x7d.\x7b\x7d", self.minor, self.major, self.revision)`. -/
def LibraryVersion.display (v : LibraryVersion) : String :=
  toString v.minor ++ "." ++ toString v.major ++ "." ++ toString v.revision

/-! ### The `Mosq` handle, transient clients and `get_callbacks`
(lowlevel.rs lines 62-68, 75-108, 311-317, 362-366) -/

/-- The `Mosq` wrapper: a native pointer (irrelevant to these claims) and
`cb: Option<Arc<CallbackWrapper<CB>>>`. -/
structure MosqHandle (CB : Type) where
  cb : Option CB

/-- Result of a call that may panic. -/
inductive PanicOr (α : Type) where
  | panics
  | returns (a : α)
deriving DecidableEq, Repr

/-- `with_transient_client` constructs `Mosq { m, cb: None }` and hands it
to the callback handler. -/
def transientClient (CB : Type) : MosqHandle CB :=
  ⟨none⟩

/-- `Mosq::get_callbacks`:
`self.cb.as_ref().expect("get_callbacks not to be called on a transient Mosq").cb.borrow()`
— `expect` on `None` panics. -/
def getCallbacks (m : MosqHandle CB) : PanicOr CB :=
  match m.cb with
  | none => .panics
  | some c => .returns c

/-- `Mosq::with_auto_id`: wraps the callbacks in `Some(Arc::new(..))` when
`mosquitto_new` returns a non-null pointer (`newOk`), else fails with
`Error::Create`. -/
def withAutoId (newOk : Bool) (callbacks : CB) :
    Except Error (MosqHandle CB) :=
  if newOk then .ok ⟨some callbacks⟩ else .error .Create

/-- `Mosq::with_id`: converts the id via `cstr?`, then behaves like
`with_auto_id`. -/
def withId (newOk : Bool) (callbacks : CB) (id : List Char) :
    Except Error (MosqHandle CB) :=
  match cstr id with
  | .error e => .error e
  | .ok _ => if newOk then .ok ⟨some callbacks⟩ else .error .Create

/-! ## Claims -/

/-- C1: For every valid MQTT control packet P, decoding the byte sequence
produced by encoding P yields P again, with the number of bytes consumed
equal to the length of the encoding. -/
theorem C1_decode_encode_roundtrip (p : Packet) (hp : ValidPacket p) :
    decodePacket (encodePacket p) = .ok p (encodePacket p).length :=
  decodePacket_encodePacket p hp

theorem C1_decode_encode_roundtrip_witness :
    ValidPacket ⟨3, 2, [104, 105]⟩ ∧
      decodePacket (encodePacket ⟨3, 2, [104, 105]⟩) =
        .ok ⟨3, 2, [104, 105]⟩ (encodePacket ⟨3, 2, [104, 105]⟩).length :=
  ⟨by decide, C1_decode_encode_roundtrip ⟨3, 2, [104, 105]⟩ (by decide)⟩

/-- C2 counterexample: the code's QoS decoder, `QoS::from_int`, maps the
invalid QoS values 3 and 128 to the valid level `ExactlyOnce`; it has no
error outcome at all, so decoding a packet whose QoS bits hold an invalid
value does not yield a `Malformed` result at the binding layer. -/
theorem C2_counterexample_fromInt_total :
    QoS.fromInt 3 = QoS.ExactlyOnce ∧ QoS.fromInt 128 = QoS.ExactlyOnce := by
  constructor <;> rfl

/-- C2 (amended): for every received QoS value other than 0, 1 or 2,
`QoS::from_int` silently coerces the value to `ExactlyOnce`; it is a
total function (never a crash), but reports no `Malformed` error. -/
theorem C2_fromInt_coerces_invalid (i : Int)
    (h0 : i ≠ 0) (h1 : i ≠ 1) (h2 : i ≠ 2) :
    QoS.fromInt i = QoS.ExactlyOnce := by
  unfold QoS.fromInt
  simp [h0, h1, h2]

theorem C2_fromInt_coerces_invalid_witness :
    (128 : Int) ≠ 0 ∧ (128 : Int) ≠ 1 ∧ (128 : Int) ≠ 2 ∧
      QoS.fromInt 128 = QoS.ExactlyOnce :=
  ⟨by decide, by decide, by decide,
    C2_fromInt_coerces_invalid 128 (by decide) (by decide) (by decide)⟩

/-- C3 counterexample: subscribing with the empty filter does invoke the
native subscribe routine (second component `true`): `cstr("")` succeeds
because the empty string has no interior NUL, so the wrapper performs no
emptiness check before the native call. -/
theorem C3_counterexample_empty_filter :
    subscribe [] .MOSQ_ERR_INVAL 0 = (.error (.Mosq .MOSQ_ERR_INVAL), true) :=
  rfl

/-- C3 (amended): a topic filter containing an embedded NUL byte makes
`subscribe` return an error before the native subscribe routine is
invoked; a filter without an embedded NUL — the empty filter included —
is passed on to the native routine. -/
theorem C3_nul_validated_before_native (pattern : List Char)
    (e : mosq_err_t) (m : MessageId) :
    (hasNul pattern = true → subscribe pattern e m = (.error .Nul, false)) ∧
    (hasNul pattern = false → (subscribe pattern e m).2 = true) := by
  constructor
  · intro h
    unfold subscribe cstr
    simp [h]
  · intro h
    unfold subscribe cstr
    simp [h]

theorem C3_nul_validated_before_native_witness :
    hasNul [Char.ofNat 0] = true ∧
      subscribe [Char.ofNat 0] .MOSQ_ERR_SUCCESS 0 = (.error .Nul, false) :=
  ⟨by decide,
    (C3_nul_validated_before_native [Char.ofNat 0] .MOSQ_ERR_SUCCESS 0).1 (by decide)⟩

/-- C4: for a publish with a valid topic, a payload of length at most
268,435,455 passes the size check (and the publish succeeds, returning
the assigned id), while a payload longer than 268,435,455 bytes makes
`publish` return the payload-size error without a message identifier:
above `i32::MAX` the wrapper's `try_into` fails with
`Error::Mosq(MOSQ_ERR_PAYLOAD_SIZE)`, and between the MQTT limit and
`i32::MAX` the (spec-modelled) native routine rejects the payload. -/
theorem C4_publish_payload_size (topic : List Char) (len : Nat)
    (m : MessageId) (htopic : hasNul topic = false) :
    (len ≤ mqttMaxPayload → payloadSizeCheck len = true ∧
      publish topic len m = .ok m) ∧
    (len > mqttMaxPayload →
      publish topic len m = .error (.Mosq .MOSQ_ERR_PAYLOAD_SIZE)) := by
  have hmax : mqttMaxPayload < i32Max := by
    unfold mqttMaxPayload i32Max
    omega
  constructor
  · intro h
    have hle : len ≤ i32Max := by omega
    have hchk : payloadSizeCheck len = true := by
      unfold payloadSizeCheck
      simp [hle]
    refine ⟨hchk, ?_⟩
    unfold publish cstr nativePublishErr Error.result
    simp [htopic, hchk, Nat.not_lt.mpr h]
  · intro h
    unfold publish cstr payloadSizeCheck nativePublishErr Error.result
    by_cases hle : len ≤ i32Max
    · simp [htopic, hle, h, mosq_err_t.MOSQ_ERR_PAYLOAD_SIZE]
    · simp [htopic, hle]

theorem C4_publish_payload_size_witness :
    hasNul [Char.ofNat 116] = false ∧ 268435456 > mqttMaxPayload ∧
      publish [Char.ofNat 116] 268435456 7 =
        .error (.Mosq .MOSQ_ERR_PAYLOAD_SIZE) :=
  ⟨by decide, by decide,
    (C4_publish_payload_size [Char.ofNat 116] 268435456 7 (by decide)).2
      (by decide)⟩

/-- C5: `topic_matches` is a pure function implementing `+`/`#` wildcard
semantics: `sensors/+/temp` matches `sensors/room1/temp` but not
`sensors/room1/room2/temp`, and `sensors/#` matches `sensors`. -/
theorem C5_topic_matches_examples :
    topic_matches "sensors/+/temp" "sensors/room1/temp" = true ∧
    topic_matches "sensors/+/temp" "sensors/room1/room2/temp" = false ∧
    topic_matches "sensors/#" "sensors" = true := by
  refine ⟨by decide, by decide, by decide⟩

/-- C6: for every SUBACK payload of granted values, the dispatcher hands
`on_subscribe` a granted-QoS list of exactly the same length whose i-th
entry is `QoS::from_int` of the i-th granted value, preserving filter
order. -/
theorem C6_granted_qos_in_order (values : List Int) (i : Nat) :
    (grantedQoS values).length = values.length ∧
    (grantedQoS values)[i]? = values[i]?.map QoS.fromInt := by
  constructor
  · simp [grantedQoS]
  · simp [grantedQoS]

/-- C7: across every sequence of `lib_version`, `with_auto_id` and
`with_id` calls from process start, `mosquitto_lib_init` runs at most
once and `mosquitto_lib_cleanup` never runs. -/
theorem C7_init_at_most_once (cs : List ApiCall) :
    (runCalls initialLibState cs).initCount ≤ 1 ∧
    (runCalls initialLibState cs).cleanupCount = 0 := by
  suffices h : ∀ s : LibState,
      s.initCount + (if s.onceDone then 0 else 1) ≤ 1 →
      (runCalls s cs).initCount + (if (runCalls s cs).onceDone then 0 else 1) ≤ 1 ∧
      (runCalls s cs).cleanupCount = s.cleanupCount by
    have h0 := h initialLibState (by simp [initialLibState])
    refine ⟨?_, h0.2⟩
    omega
  induction cs with
  | nil => intro s hs; exact ⟨hs, rfl⟩
  | cons c cs ih =>
    intro s hs
    have hstep : (stepCall s c).initCount + (if (stepCall s c).onceDone then 0 else 1) ≤ 1 ∧
        (stepCall s c).cleanupCount = s.cleanupCount := by
      cases c <;>
        · simp only [stepCall, initLibrary]
          by_cases hd : s.onceDone <;> simp [hd] at hs ⊢ <;> omega
    have := ih (stepCall s c) hstep.1
    exact ⟨this.1, this.2.trans hstep.2⟩

/-- C8: the `Display` impl renders the three numeric fields in the order
minor, major, revision — major=2, minor=0, revision=15 displays as
"0.2.15", not "2.0.15". -/
theorem C8_display_field_order :
    (∀ v : LibraryVersion, v.display =
      toString v.minor ++ "." ++ toString v.major ++ "." ++ toString v.revision) ∧
    LibraryVersion.display ⟨2, 0, 15, 0⟩ = "0.2.15" ∧
    LibraryVersion.display ⟨2, 0, 15, 0⟩ ≠ "2.0.15" := by
  refine ⟨fun v => rfl, by decide, by decide⟩

/-- C9: `get_callbacks` panics on the transient, non-owning handle the
dispatcher builds for callback handlers (its `cb` field is `None`), and
returns normally on every client successfully constructed via
`with_auto_id` or `with_id`. -/
theorem C9_get_callbacks_transient_panics (CB : Type) (newOk : Bool)
    (callbacks : CB) (id : List Char) (c : MosqHandle CB) :
    getCallbacks (transientClient CB) = .panics ∧
    (withAutoId newOk callbacks = .ok c →
      getCallbacks c = .returns callbacks) ∧
    (withId newOk callbacks id = .ok c →
      getCallbacks c = .returns callbacks) := by
  refine ⟨rfl, ?_, ?_⟩
  · intro h
    unfold withAutoId at h
    by_cases hok : newOk
    · simp [hok] at h
      rw [← h]
      rfl
    · simp [hok] at h
  · intro h
    unfold withId cstr at h
    by_cases hnul : hasNul id
    · simp [hnul] at h
    · by_cases hok : newOk <;> simp [hnul, hok] at h
      rw [← h]
      rfl

theorem C9_get_callbacks_transient_panics_witness :
    getCallbacks (transientClient Nat) = .panics ∧
      withAutoId true 5 = .ok (⟨some 5⟩ : MosqHandle Nat) ∧
      getCallbacks (⟨some 5⟩ : MosqHandle Nat) = .returns 5 :=
  ⟨(C9_get_callbacks_transient_panics Nat true 5 [] ⟨some 5⟩).1, rfl,
    (C9_get_callbacks_transient_panics Nat true 5 [] ⟨some 5⟩).2.1 rfl⟩

/-- C10: when the keep-alive interval's whole-second count exceeds
`i32::MAX` = 2,147,483,647, both `connect` and `connect_non_blocking`
(with well-formed host and bind-address strings) return
`Error::Mosq(MOSQ_ERR_INVAL)` without invoking the native connect
routine, so no network I/O occurs. -/
theorem C10_keepalive_overflow_rejected (host : List Char)
    (bindAddress : Option (List Char)) (secs : Nat) (e : mosq_err_t)
    (hhost : hasNul host = false)
    (hbind : ∀ b, bindAddress = some b → hasNul b = false)
    (hsecs : secs > i32Max) :
    connect host bindAddress secs e = (.error (.Mosq .MOSQ_ERR_INVAL), false) ∧
    connectNonBlocking host bindAddress secs e =
      (.error (.Mosq .MOSQ_ERR_INVAL), false) := by
  have hka : ¬ secs ≤ i32Max := by omega
  cases bindAddress with
  | none =>
    refine ⟨?_, ?_⟩
    · unfold connect cstr
      simp [hhost, hka]
    · unfold connectNonBlocking cstr
      simp [hhost, hka]
  | some b =>
    have hb : hasNul b = false := hbind b rfl
    refine ⟨?_, ?_⟩
    · unfold connect cstr
      simp [hhost, hb, hka]
    · unfold connectNonBlocking cstr
      simp [hhost, hb, hka]

theorem C10_keepalive_overflow_rejected_witness :
    hasNul [Char.ofNat 104] = false ∧ 2147483648 > i32Max ∧
      connect [Char.ofNat 104] none 2147483648 .MOSQ_ERR_SUCCESS =
        (.error (.Mosq .MOSQ_ERR_INVAL), false) :=
  ⟨by decide, by decide,
    (C10_keepalive_overflow_rejected [Char.ofNat 104] none 2147483648
      .MOSQ_ERR_SUCCESS (by decide) (fun b hb => by simp at hb)
      (by decide)).1⟩

end Mosquitto
